import Mathlib

/-!
A shallow embedding of the Receipt-Processor web service (Go, `main.go`).

Mapping conventions:
* Go strings are Lean `String`s (valid UTF-8, as produced by Go's JSON
  decoder); Go `len` on a string is the UTF-8 byte length, embedded as
  `goByteLen`.
* `strconv.ParseFloat` is embedded as `goParseFloat : String → Option ℚ`,
  an exact-rational idealization of float64: a decimal mantissa with
  optional sign and exponent yields its exact decimal value.  The special
  forms accepted by Go beyond plain decimals (hex floats, "Inf", "NaN",
  digit-group underscores) and the out-of-range (ErrRange) cases are
  outside the model.  All float64 arithmetic of the scorer (`math.Mod`,
  `math.Ceil`, the literals 0.25 and 0.2) is likewise idealized over ℚ;
  the literal 0.2 is the exact 1/5.
* `time.Parse("2006-01-02", ·)` / `time.Parse("15:04", ·)` are embedded as
  `goParseDate` / `goParseTime`, reproducing Go's digit-count and range
  checks (4-digit year, 2-digit month 01-12, 2-digit day bounded by the
  month length with leap years; 1-or-2-digit hour 0-23, 2-digit minute
  0-59, nothing left over).
* Go's slice expression `Total[len(Total)-3:]` panics when the byte length
  is below 3; `calculatePoints` therefore returns `Option ℤ`, `none`
  standing for the runtime panic.
* The gin handlers are embedded as explicit state transitions on the
  global `receipts` map, modeled as an association list; the JSON bind
  step of `processReceipts` is an `Option Receipt` argument (`none` = a
  payload that fails to bind) and `generateID` is an explicit fresh-id
  argument.
-/

namespace ReceiptProcessor

/-- One item line of a receipt (struct `Item` in `main.go`). -/
structure Item where
  ShortDescription : String
  Price : String
deriving DecidableEq

/-- A submitted receipt (struct `Receipt` in `main.go`). -/
structure Receipt where
  Retailer : String
  PurchaseDate : String
  PurchaseTime : String
  Items : List Item
  Total : String
deriving DecidableEq

/-- UTF-8 byte count of one code point, as Go counts string bytes. -/
def charUtf8Size (c : Char) : Nat :=
  if c.toNat < 0x80 then 1
  else if c.toNat < 0x800 then 2
  else if c.toNat < 0x10000 then 3
  else 4

/-- Go `len` on a string: its UTF-8 byte length. -/
def goByteLen (s : String) : Nat :=
  (s.toList.map charUtf8Size).sum

/-- ASCII decimal digit test used by the embedded Go parsers. -/
def isAsciiDigit (c : Char) : Bool :=
  decide (48 ≤ c.toNat ∧ c.toNat ≤ 57)

/-- Numeric value of a list of ASCII digits, most significant first. -/
def digitsToNat (l : List Char) : Nat :=
  l.foldl (fun a c => 10 * a + (c.toNat - 48)) 0

/-- Strip one optional leading sign, reporting whether it was a minus. -/
def splitSign : List Char → Bool × List Char
  | '+' :: rest => (false, rest)
  | '-' :: rest => (true, rest)
  | cs => (false, cs)

/-- Decimal mantissa of `strconv.ParseFloat`: digits with an optional
point, at least one digit overall; returns its exact value and the
unconsumed remainder. -/
def parseMantissa (cs : List Char) : Option (ℚ × List Char) :=
  let intPart := cs.takeWhile isAsciiDigit
  let rest1 := cs.dropWhile isAsciiDigit
  match rest1 with
  | '.' :: rest2 =>
    let fracPart := rest2.takeWhile isAsciiDigit
    let rest3 := rest2.dropWhile isAsciiDigit
    if intPart.isEmpty ∧ fracPart.isEmpty then none
    else some ((digitsToNat intPart : ℚ) + (digitsToNat fracPart : ℚ) / (10 ^ fracPart.length), rest3)
  | _ =>
    if intPart.isEmpty then none
    else some ((digitsToNat intPart : ℚ), rest1)

/-- Optional exponent suffix of `strconv.ParseFloat` (`e`/`E`, optional
sign, at least one digit, nothing after it). -/
def parseExponent : List Char → Option ℤ
  | [] => some 0
  | e :: rest =>
    if e = 'e' ∨ e = 'E' then
      let (neg, rest2) := splitSign rest
      let ds := rest2.takeWhile isAsciiDigit
      let rest3 := rest2.dropWhile isAsciiDigit
      if ds.isEmpty ∨ ¬ rest3.isEmpty then none
      else some (if neg then -(digitsToNat ds : ℤ) else (digitsToNat ds : ℤ))
    else none

/-- `strconv.ParseFloat(s, 64)`, exact-rational idealization: `none` when
Go reports a syntax error, otherwise the exact decimal value. -/
def goParseFloat (s : String) : Option ℚ := do
  let (neg, cs) := splitSign s.toList
  let (m, rest) ← parseMantissa cs
  let e ← parseExponent rest
  let v := m * (10 : ℚ) ^ e
  some (if neg then -v else v)

/-- Helper `stringToFloat64` of `main.go`: the parse error is discarded,
so an unparsable string yields 0. -/
def stringToFloat64 (total : String) : ℚ :=
  (goParseFloat total).getD 0

/-- Leap-year rule used by Go's `time` package. -/
def isLeapYear (y : Nat) : Bool :=
  (y % 4 = 0 ∧ y % 100 ≠ 0) ∨ y % 400 = 0

/-- Month lengths used by Go's `time.Parse` day-range check. -/
def daysInMonth (y m : Nat) : Nat :=
  if m = 2 then (if isLeapYear y then 29 else 28)
  else if m = 4 ∨ m = 6 ∨ m = 9 ∨ m = 11 then 30
  else 31

/-- `time.Parse("2006-01-02", s)`: exactly 4-digit year, 2-digit month
1-12, 2-digit day within the month, the two literal dashes, and no
leftover input; yields (year, month, day) on success. -/
def goParseDate (s : String) : Option (Nat × Nat × Nat) :=
  match s.toList with
  | [y1, y2, y3, y4, '-', m1, m2, '-', d1, d2] =>
    if ([y1, y2, y3, y4, m1, m2, d1, d2].all isAsciiDigit : Bool) then
      let y := digitsToNat [y1, y2, y3, y4]
      let m := digitsToNat [m1, m2]
      let d := digitsToNat [d1, d2]
      if 1 ≤ m ∧ m ≤ 12 ∧ 1 ≤ d ∧ d ≤ daysInMonth y m then some (y, m, d) else none
    else none
  | _ => none

/-- `time.Parse("15:04", s)`: a 1-or-2-digit hour below 24 (Go's `stdHour`
is not fixed-width), the literal colon, an exactly-2-digit minute below
60, and no leftover input; yields (hour, minute) on success. -/
def goParseTime (s : String) : Option (Nat × Nat) :=
  match s.toList with
  | [h1, ':', n1, n2] =>
    if ([h1, n1, n2].all isAsciiDigit : Bool) then
      let h := digitsToNat [h1]
      let n := digitsToNat [n1, n2]
      if h ≤ 23 ∧ n ≤ 59 then some (h, n) else none
    else none
  | [h1, h2, ':', n1, n2] =>
    if ([h1, h2, n1, n2].all isAsciiDigit : Bool) then
      let h := digitsToNat [h1, h2]
      let n := digitsToNat [n1, n2]
      if h ≤ 23 ∧ n ≤ 59 then some (h, n) else none
    else none
  | _ => none

/-- The character class `\s` of Go's regexp package: tab, newline, form
feed, carriage return, space. -/
def goRegexSpace (c : Char) : Bool :=
  decide (c.toNat = 9 ∨ c.toNat = 10 ∨ c.toNat = 12 ∨ c.toNat = 13 ∨ c.toNat = 32)

/-- One character of the retailer pattern `[A-Za-z0-9\s]`. -/
def isRetailerChar (c : Char) : Bool :=
  decide (65 ≤ c.toNat ∧ c.toNat ≤ 90) || decide (97 ≤ c.toNat ∧ c.toNat ≤ 122) ||
    decide (48 ≤ c.toNat ∧ c.toNat ≤ 57) || goRegexSpace c

/-- The anchored match of the regexp used in `processReceipts`, line 59:
a string matches iff it is non-empty and every code point lies in the
class. -/
def retailerValid (s : String) : Bool :=
  !s.toList.isEmpty && s.toList.all isRetailerChar

/-- The five rejection reasons of `processReceipts`, in source order. -/
inductive Reason where
  | invalidRetailerName
  | invalidPurchaseDate
  | invalidPurchaseTime
  | emptyItemDescription
  | invalidItemPrice
deriving DecidableEq

/-- The Go 400-response message for each rejection reason. -/
def reasonMessage : Reason → String
  | .invalidRetailerName => "Invalid retailer name"
  | .invalidPurchaseDate => "Invalid purchase date"
  | .invalidPurchaseTime => "Invalid purchase time"
  | .emptyItemDescription => "Item description cannot be empty"
  | .invalidItemPrice => "Invalid item price"

/-- The per-item loop of `processReceipts`, lines 77-87: first empty
description, then unparsable price, aborting at the first offender. -/
def validateItems : List Item → Option Reason
  | [] => none
  | item :: rest =>
    if item.ShortDescription = "" then some .emptyItemDescription
    else if (goParseFloat item.Price).isNone then some .invalidItemPrice
    else validateItems rest

/-- The validation prefix of `processReceipts`, lines 59-87: retailer
regexp, purchase date, purchase time, then the item loop; `none` means
accepted. -/
def validate (r : Receipt) : Option Reason :=
  if !retailerValid r.Retailer then some .invalidRetailerName
  else if (goParseDate r.PurchaseDate).isNone then some .invalidPurchaseDate
  else if (goParseTime r.PurchaseTime).isNone then some .invalidPurchaseTime
  else validateItems r.Items

/-- Go `unicode.IsSpace`, the trimming class of `strings.TrimSpace`. -/
def goIsSpace (c : Char) : Bool :=
  decide ((9 ≤ c.toNat ∧ c.toNat ≤ 13) ∨ c.toNat = 32 ∨ c.toNat = 0x85 ∨ c.toNat = 0xA0 ∨
    c.toNat = 0x1680 ∨ (0x2000 ≤ c.toNat ∧ c.toNat ≤ 0x200A) ∨ c.toNat = 0x2028 ∨
    c.toNat = 0x2029 ∨ c.toNat = 0x202F ∨ c.toNat = 0x205F ∨ c.toNat = 0x3000)

/-- `strings.TrimSpace`: drop `unicode.IsSpace` code points from both
ends. -/
def goTrimSpace (s : String) : String :=
  String.mk (((s.toList.dropWhile goIsSpace).reverse.dropWhile goIsSpace).reverse)

/-- Rule 1 of `calculatePoints`: one point per ASCII alphanumeric rune of
the retailer name. -/
def rule1 (retailer : String) : ℤ :=
  (retailer.toList.countP isAlnumAscii : ℤ)
where
  /-- The rune test of the rule-1 loop. -/
  isAlnumAscii (c : Char) : Bool :=
    decide (97 ≤ c.toNat ∧ c.toNat ≤ 122) || decide (65 ≤ c.toNat ∧ c.toNat ≤ 90) ||
      decide (48 ≤ c.toNat ∧ c.toNat ≤ 57)

/-- Whether the last three bytes of the string are `".00"`.  For valid
UTF-8 and byte length at least 3 this holds iff the last three code
points are `.`, `0`, `0`, which is what is tested here. -/
def rule2Suffix (total : String) : Bool :=
  match total.toList.reverse with
  | '0' :: '0' :: '.' :: _ => true
  | _ => false

/-- Rule 2 of `calculatePoints`, line 120: the literal `"0"`, or the
3-byte suffix `".00"` of the total.  The slice `Total[len(Total)-3:]`
panics when the byte length is below 3, embedded as `none`. -/
def rule2Check (total : String) : Option Bool :=
  if total = "0" then some true
  else if goByteLen total < 3 then none
  else some (rule2Suffix total)

/-- Rule-2 contribution (50 or 0), `none` on the slice panic. -/
def rule2Points (total : String) : Option ℤ :=
  (rule2Check total).map (fun b => if b then 50 else 0)

/-- Truncation toward zero, as Go's `math.Trunc` rounds. -/
def ratTrunc (q : ℚ) : ℤ :=
  if 0 ≤ q then Int.floor q else Int.ceil q

/-- Go `math.Mod(x, y)` over the exact-rational idealization: the
remainder `x - y * trunc(x/y)` with the sign of `x`. -/
def goMathMod (x y : ℚ) : ℚ :=
  x - y * (ratTrunc (x / y) : ℚ)

/-- Rule-3 condition of `calculatePoints`, line 125: the literal `"0"`,
or `math.Mod(stringToFloat64(total), 0.25) == 0`. -/
def rule3Test (total : String) : Bool :=
  total == "0" || decide (goMathMod (stringToFloat64 total) (1 / 4) = 0)

/-- Rule-3 contribution (25 or 0). -/
def rule3Points (total : String) : ℤ :=
  if rule3Test total then 25 else 0

/-- Rule 4 of `calculatePoints`, line 130: 5 points per pair of items,
with Go's truncating integer division. -/
def rule4 (items : List Item) : ℤ :=
  ((items.length / 2 * 5 : ℕ) : ℤ)

/-- Rule-5 contribution of one item, lines 133-137: when the byte length
of the trimmed description is divisible by 3, the ceiling of price
times 0.2. -/
def rule5Item (item : Item) : ℤ :=
  if goByteLen (goTrimSpace item.ShortDescription) % 3 = 0 then
    Int.ceil (stringToFloat64 item.Price * (1 / 5 : ℚ))
  else 0

/-- Rule 5 of `calculatePoints`: the sum of the per-item contributions. -/
def rule5 (items : List Item) : ℤ :=
  (items.map rule5Item).sum

/-- Rule 6 of `calculatePoints`, lines 140-143: 6 points when the date
parses and its day of month is odd. -/
def rule6 (dateStr : String) : ℤ :=
  match goParseDate dateStr with
  | some (_, _, d) => if d % 2 = 1 then 6 else 0
  | none => 0

/-- Rule 7 of `calculatePoints`, lines 146-152: 10 points when the time
parses and its hour lies in [14, 16). -/
def rule7 (timeStr : String) : ℤ :=
  match goParseTime timeStr with
  | some (h, _) => if 14 ≤ h ∧ h < 16 then 10 else 0
  | none => 0

/-- `calculatePoints` of `main.go`, lines 109-155: the seven rule
contributions accumulated in source order; `none` is the rule-2 slice
panic, which aborts the whole computation. -/
def calculatePoints (r : Receipt) : Option ℤ :=
  match rule2Check r.Total with
  | none => none
  | some b =>
    some (rule1 r.Retailer + (if b then 50 else 0) + rule3Points r.Total +
      rule4 r.Items + rule5 r.Items + rule6 r.PurchaseDate + rule7 r.PurchaseTime)

/-- The in-memory `receipts` map, as an association list keyed by id. -/
abbrev Store := List (String × Receipt)

/-- The response of the `processReceipts` handler: a 400 for a payload
that fails to bind, a 400 with a reason message for a validation
failure, or a 200 carrying the fresh id. -/
inductive ProcessResult where
  | bindError
  | validationError (reason : Reason)
  | ok (id : String)
deriving DecidableEq

/-- The `processReceipts` handler, lines 50-100, as a state transition:
the bound payload (`none` when `BindJSON` fails) and the id produced by
`generateID` are explicit arguments; on acceptance the receipt is stored
under the fresh id. -/
def processReceipts (store : Store) (payload : Option Receipt) (freshId : String) :
    Store × ProcessResult :=
  match payload with
  | none => (store, .bindError)
  | some receipt =>
    match validate receipt with
    | some reason => (store, .validationError reason)
    | none => ((freshId, receipt) :: store, .ok freshId)

/-- The `getPoints` handler, lines 158-174: `none` is the 404 for an
unknown id; otherwise the points of the stored receipt (whose inner
`none` is the rule-2 panic). -/
def getPoints (store : Store) (id : String) : Option (Option ℤ) :=
  (store.lookup id).map calculatePoints

/-- Spec-side reformulation for the C5 refinement: the validation checks
as an ordered list of (passed, reason) pairs, per item first the
description then the price. -/
def specItemChecks : List Item → List (Bool × Reason)
  | [] => []
  | item :: rest =>
    (item.ShortDescription != "", Reason.emptyItemDescription) ::
      ((goParseFloat item.Price).isSome, Reason.invalidItemPrice) :: specItemChecks rest

/-- Spec-side reformulation for C5: the reason of the first failing check
in the list, if any. -/
def firstFailure : List (Bool × Reason) → Option Reason
  | [] => none
  | (true, _) :: rest => firstFailure rest
  | (false, re) :: _ => some re

/-- Spec-side reformulation for C5: run the ordered checks (retailer,
date, time, then the per-item checks) and report the first failure. -/
def validateSpec (r : Receipt) : Option Reason :=
  firstFailure ((retailerValid r.Retailer, Reason.invalidRetailerName) ::
    ((goParseDate r.PurchaseDate).isSome, Reason.invalidPurchaseDate) ::
    ((goParseTime r.PurchaseTime).isSome, Reason.invalidPurchaseTime) ::
    specItemChecks r.Items)

/-- Modelled from the spec, for the C2 comparison: rule 3 computed the
mandated way, by scaling the total to an integer number of cents and
testing divisibility by 25 (with the literal-`"0"` special case); a
total that does not parse, or whose value is not a whole number of
cents, does not match. -/
def rule3CentsSpec (total : String) : Bool :=
  total == "0" ||
    (match goParseFloat total with
     | some q => decide ((100 * q).den = 1 ∧ (100 * q).num % 25 = 0)
     | none => false)

/-- C1: the claim says the scorer is total and that a total shorter than
3 characters, other than the literal `"0"`, does not fault in the rule-2
suffix check.  The code violates this: the receipt below passes the whole
validation of `processReceipts` (the total is never validated), yet
`calculatePoints` evaluates the slice `Total[len(Total)-3:]` with the
negative index -2 and panics, embedded as `none`. -/
theorem c1_short_total_panics :
    validate ⟨"Target", "2022-01-01", "13:01", [], "5"⟩ = none ∧
      calculatePoints ⟨"Target", "2022-01-01", "13:01", [], "5"⟩ = none := by
  exact ⟨by decide, by with_unfolding_all rfl⟩

/-- C2: the claim mandates the integer-cents divisibility form for rule 3
with boundary cases `"10.25"` contributing and `"10.30"` not.  The
mandated predicate, modelled from the spec, evaluates as the claim states
on the boundary cases, and rejects the total `"1125899906842624.01"`
(112589990684262401 cents, which is not divisible by 25); `main.go`
instead computes `math.Mod(float64, 0.25)`, which at that total sees the
rounded float64 value 2^50 and awards the 25 points. -/
theorem c2_cents_rule_eval :
    rule3CentsSpec "10.25" = true ∧ rule3CentsSpec "10.30" = false ∧
      rule3CentsSpec "1125899906842624.01" = false ∧
      rule3Test "10.25" = true ∧ rule3Test "10.30" = false := by
  refine ⟨by with_unfolding_all rfl, by with_unfolding_all rfl, by with_unfolding_all rfl,
    by with_unfolding_all rfl, by with_unfolding_all rfl⟩

/-- C3, counterexample: the claim says every receipt accepted by the
validator scores a non-negative total.  This receipt is accepted (the
price `"-100"` parses), yet rule 5 contributes the ceiling of -100/5 and
the final score is -19. -/
theorem c3_negative_points_counterexample :
    validate ⟨"A", "2024-01-02", "13:00", [⟨"abc", "-100"⟩], "1.10"⟩ = none ∧
      calculatePoints ⟨"A", "2024-01-02", "13:00", [⟨"abc", "-100"⟩], "1.10"⟩ = some (-19) ∧
      (-19 : ℤ) < 0 := by
  refine ⟨by decide, by with_unfolding_all rfl, by decide⟩

/-- C4, counterexample: the claim says every stored receipt has a
parseable total and non-negative parseable item prices.  This receipt is
accepted and stored although its total `"xyz"` does not parse at all and
its item price `"-1"` parses to a negative value. -/
theorem c4_unvalidated_total_counterexample :
    (processReceipts [] (some ⟨"A", "2024-01-15", "14:30", [⟨"x", "-1"⟩], "xyz"⟩) "id1").2 =
        ProcessResult.ok "id1" ∧
      (processReceipts [] (some ⟨"A", "2024-01-15", "14:30", [⟨"x", "-1"⟩], "xyz"⟩) "id1").1 =
        [("id1", ⟨"A", "2024-01-15", "14:30", [⟨"x", "-1"⟩], "xyz"⟩)] ∧
      goParseFloat "xyz" = none ∧ stringToFloat64 "-1" < 0 := by
  refine ⟨by decide, by decide, by decide, by with_unfolding_all decide⟩

/-- C6, counterexample: the claim says rule 5 pays iff the trimmed
description's character length is divisible by 3.  The description `"日"`
is a single character (length 1, not divisible by 3), yet the code tests
Go's `len`, its UTF-8 byte length 3, and pays the ceiling of 10/5 = 2. -/
theorem c6_byte_length_counterexample :
    rule5Item ⟨"日", "10.00"⟩ = 2 ∧ (goTrimSpace "日").length = 1 ∧ ¬ (1 % 3 = 0) := by
  refine ⟨by with_unfolding_all rfl, by decide, by decide⟩

/-- A total that is literally `"0"` or has at least 3 bytes makes the
rule-2 check return a value instead of panicking. -/
theorem rule2Check_isSome_of_safe (total : String) (h : total = "0" ∨ 3 ≤ goByteLen total) :
    ∃ b, rule2Check total = some b := by
  by_cases h0 : total = "0"
  · exact ⟨true, by simp [rule2Check, h0]⟩
  · rcases h with h | h
    · exact absurd h h0
    · exact ⟨rule2Suffix total, by rw [rule2Check, if_neg h0, if_neg (by omega)]⟩

/-- When the rule-2 check does not panic, the score is the accumulated
sum of the seven rule contributions. -/
theorem calculatePoints_eq_sum (r : Receipt) (b : Bool) (hb : rule2Check r.Total = some b) :
    calculatePoints r = some (rule1 r.Retailer + (if b then 50 else 0) + rule3Points r.Total +
      rule4 r.Items + rule5 r.Items + rule6 r.PurchaseDate + rule7 r.PurchaseTime) := by
  unfold calculatePoints
  rw [hb]

/-- Rule 1 never subtracts points. -/
theorem rule1_nonneg (s : String) : 0 ≤ rule1 s :=
  Int.natCast_nonneg _

/-- Rule 3 never subtracts points. -/
theorem rule3Points_nonneg (t : String) : 0 ≤ rule3Points t := by
  unfold rule3Points
  split <;> norm_num

/-- Rule 4 never subtracts points. -/
theorem rule4_nonneg (items : List Item) : 0 ≤ rule4 items :=
  Int.natCast_nonneg _

/-- Rule 5 pays a non-negative amount on an item whose price value is
non-negative. -/
theorem rule5Item_nonneg (it : Item) (h : 0 ≤ stringToFloat64 it.Price) :
    0 ≤ rule5Item it := by
  unfold rule5Item
  split
  · exact Int.ceil_nonneg (mul_nonneg h (by norm_num))
  · exact le_refl 0

/-- Rule 5 never subtracts points when all price values are
non-negative. -/
theorem rule5_nonneg (items : List Item) (h : ∀ it ∈ items, 0 ≤ stringToFloat64 it.Price) :
    0 ≤ rule5 items := by
  unfold rule5
  refine List.sum_nonneg ?_
  intro x hx
  obtain ⟨it, hit, rfl⟩ := List.mem_map.mp hx
  exact rule5Item_nonneg it (h it hit)

/-- Rule 6 never subtracts points. -/
theorem rule6_nonneg (s : String) : 0 ≤ rule6 s := by
  unfold rule6
  split
  · split <;> norm_num
  · norm_num

/-- Rule 7 never subtracts points. -/
theorem rule7_nonneg (s : String) : 0 ≤ rule7 s := by
  unfold rule7
  split
  · split <;> norm_num
  · norm_num

/-- C3, amended: for every receipt accepted by the validator whose total
is `"0"` or at least 3 bytes long (so rule 2 does not panic) and whose
item prices all parse to non-negative values, the score is defined,
equals the sum of the seven rule contributions, and is non-negative. -/
theorem c3_accepted_score_nonneg (r : Receipt) (_hacc : validate r = none)
    (hsafe : r.Total = "0" ∨ 3 ≤ goByteLen r.Total)
    (hprice : ∀ item ∈ r.Items, 0 ≤ stringToFloat64 item.Price) :
    ∃ b : Bool, rule2Check r.Total = some b ∧
      calculatePoints r = some (rule1 r.Retailer + (if b then 50 else 0) + rule3Points r.Total +
        rule4 r.Items + rule5 r.Items + rule6 r.PurchaseDate + rule7 r.PurchaseTime) ∧
      0 ≤ rule1 r.Retailer + (if b then 50 else 0) + rule3Points r.Total + rule4 r.Items +
        rule5 r.Items + rule6 r.PurchaseDate + rule7 r.PurchaseTime := by
  obtain ⟨b, hb⟩ := rule2Check_isSome_of_safe r.Total hsafe
  refine ⟨b, hb, calculatePoints_eq_sum r b hb, ?_⟩
  have h2 : (0 : ℤ) ≤ (if b then 50 else 0) := by split <;> norm_num
  exact add_nonneg (add_nonneg (add_nonneg (add_nonneg (add_nonneg
    (add_nonneg (rule1_nonneg r.Retailer) h2) (rule3Points_nonneg r.Total))
    (rule4_nonneg r.Items)) (rule5_nonneg r.Items hprice))
    (rule6_nonneg r.PurchaseDate)) (rule7_nonneg r.PurchaseTime)

/-- C3, witness: the amended theorem applied to a concrete accepted
receipt. -/
theorem c3_accepted_score_nonneg_witness :
    validate ⟨"Target", "2022-01-01", "13:01", [], "35.35"⟩ = none ∧
      ("35.35" = "0" ∨ 3 ≤ goByteLen "35.35") ∧
      (∀ item ∈ ([] : List Item), 0 ≤ stringToFloat64 item.Price) ∧
      (∃ b : Bool, rule2Check "35.35" = some b ∧
        calculatePoints ⟨"Target", "2022-01-01", "13:01", [], "35.35"⟩ =
          some (rule1 "Target" + (if b then 50 else 0) + rule3Points "35.35" +
            rule4 [] + rule5 [] + rule6 "2022-01-01" + rule7 "13:01") ∧
        0 ≤ rule1 "Target" + (if b then 50 else 0) + rule3Points "35.35" + rule4 [] +
          rule5 [] + rule6 "2022-01-01" + rule7 "13:01") :=
  ⟨by decide, by decide, by decide,
    c3_accepted_score_nonneg ⟨"Target", "2022-01-01", "13:01", [], "35.35"⟩
      (by decide) (by decide) (by decide)⟩

/-- C7, counterexample: the claim says an unparsable total contributes 0
through rule 3.  For the unparsable total `"abc"`, `stringToFloat64`
yields 0, `math.Mod(0, 0.25) == 0` holds, and rule 3 awards 25: the
accepted receipt below scores 1 (retailer) + 25 = 26. -/
theorem c7_unparsable_total_counterexample :
    goParseFloat "abc" = none ∧ rule3Test "abc" = true ∧
      calculatePoints ⟨"A", "2024-01-02", "13:00", [], "abc"⟩ = some 26 := by
  refine ⟨by decide, by with_unfolding_all rfl, by with_unfolding_all rfl⟩

/-- An accepted receipt passed the item loop. -/
theorem validate_none_validateItems (r : Receipt) (h : validate r = none) :
    validateItems r.Items = none := by
  unfold validate at h
  split at h
  · exact absurd h (by simp)
  · split at h
    · exact absurd h (by simp)
    · split at h
      · exact absurd h (by simp)
      · exact h

/-- A successful item loop means every item has a non-empty description
and a price that parses. -/
theorem validateItems_none_sound (items : List Item) (h : validateItems items = none) :
    ∀ it ∈ items, it.ShortDescription ≠ "" ∧ (goParseFloat it.Price).isSome = true := by
  induction items with
  | nil => intro it hit; cases hit
  | cons a rest ih =>
    intro it hit
    by_cases hd : a.ShortDescription = ""
    · rw [validateItems, if_pos hd] at h
      exact absurd h (by simp)
    · cases hpf : goParseFloat a.Price with
      | none =>
        rw [validateItems, if_neg hd, hpf] at h
        exact absurd h (by simp)
      | some q =>
        rw [validateItems, if_neg hd, hpf] at h
        simp only [Option.isNone_some, Bool.false_eq_true, if_false] at h
        rcases List.mem_cons.mp hit with rfl | hit'
        · exact ⟨hd, by rw [hpf]; rfl⟩
        · exact ih h it hit'

/-- C4, amended: every receipt that `processReceipts` stores satisfies
the invariants the code actually enforces: each item has a non-empty
short description and a price that parses as a decimal number (possibly
negative).  The total is not constrained by validation at all. -/
theorem c4_item_invariants (store : Store) (r : Receipt) (freshId : String)
    (h : (processReceipts store (some r) freshId).2 = ProcessResult.ok freshId) :
    ∀ item ∈ r.Items, item.ShortDescription ≠ "" ∧ (goParseFloat item.Price).isSome = true := by
  cases hv : validate r with
  | some reason =>
    simp only [processReceipts, hv] at h
    exact absurd h (by simp)
  | none => exact validateItems_none_sound r.Items (validate_none_validateItems r hv)

/-- C4, witness: the amended theorem applied to a concrete stored
receipt. -/
theorem c4_item_invariants_witness :
    (processReceipts [] (some ⟨"A", "2024-01-15", "14:30", [⟨"abc", "1.50"⟩], "x"⟩) "w4").2 =
        ProcessResult.ok "w4" ∧
      ∀ item ∈ [(⟨"abc", "1.50"⟩ : Item)],
        item.ShortDescription ≠ "" ∧ (goParseFloat item.Price).isSome = true :=
  ⟨by decide, c4_item_invariants [] ⟨"A", "2024-01-15", "14:30", [⟨"abc", "1.50"⟩], "x"⟩ "w4"
    (by decide)⟩

/-- The item loop agrees with the flattened check-list view of the
per-item checks. -/
theorem validateItems_eq_firstFailure (items : List Item) :
    validateItems items = firstFailure (specItemChecks items) := by
  induction items with
  | nil => rfl
  | cons a rest ih =>
    by_cases hd : a.ShortDescription = ""
    · rw [validateItems, if_pos hd, specItemChecks]
      have hb : (a.ShortDescription != "") = false := by simp [hd]
      rw [hb, firstFailure]
    · have hb : (a.ShortDescription != "") = true := by simp [hd]
      cases hpf : goParseFloat a.Price with
      | none =>
        rw [validateItems, if_neg hd, hpf, specItemChecks, hb, hpf, firstFailure]
        rfl
      | some q =>
        rw [validateItems, if_neg hd, hpf, specItemChecks, hb, hpf, firstFailure]
        simpa using ih

/-- C5: validation checks retailer name, purchase date, purchase time,
then each item's description and price in that order, short-circuiting
on the first failure (it equals the first-failure scan of that ordered
check-list), it reports at most one reason per call, and each of the
five reasons is realizable. -/
theorem c5_validation_order :
    (∀ r : Receipt, validate r = validateSpec r) ∧
      (∀ reason : Reason, ∃ r : Receipt, validate r = some reason) := by
  constructor
  · intro r
    unfold validate validateSpec
    cases hr : retailerValid r.Retailer with
    | false => rw [firstFailure]; simp
    | true =>
      rw [firstFailure]
      cases hdt : goParseDate r.PurchaseDate with
      | none => simp [firstFailure]
      | some x =>
        cases htm : goParseTime r.PurchaseTime with
        | none => simp [firstFailure]
        | some y => simp [firstFailure, validateItems_eq_firstFailure]
  · intro reason
    cases reason with
    | invalidRetailerName => exact ⟨⟨"", "x", "x", [], "x"⟩, by decide⟩
    | invalidPurchaseDate => exact ⟨⟨"A", "x", "x", [], "x"⟩, by decide⟩
    | invalidPurchaseTime => exact ⟨⟨"A", "2024-01-15", "x", [], "x"⟩, by decide⟩
    | emptyItemDescription => exact ⟨⟨"A", "2024-01-15", "13:00", [⟨"", "1"⟩], "x"⟩, by decide⟩
    | invalidItemPrice => exact ⟨⟨"A", "2024-01-15", "13:00", [⟨"d", "zz"⟩], "x"⟩, by decide⟩

/-- C6, amended: rule 5 sums the ceiling of price/5 over exactly those
items whose trimmed description has UTF-8 byte length divisible by 3
(Go's `len`); all other items are dropped regardless of price. -/
theorem c6_rule5_trimmed_byte_length (items : List Item) :
    rule5 items =
      ((items.filter fun it => goByteLen (goTrimSpace it.ShortDescription) % 3 == 0).map
        fun it => Int.ceil (stringToFloat64 it.Price * (1 / 5 : ℚ))).sum := by
  induction items with
  | nil => rfl
  | cons a rest ih =>
    have hl : rule5 (a :: rest) = rule5Item a + rule5 rest := by
      simp [rule5]
    by_cases h : goByteLen (goTrimSpace a.ShortDescription) % 3 = 0
    · rw [hl, ih, List.filter_cons, if_pos (by simpa using h), List.map_cons, List.sum_cons,
        rule5Item, if_pos h]
    · rw [hl, ih, List.filter_cons, if_neg (by simpa using h), rule5Item, if_neg h, zero_add]

/-- The literal `"0"` parses to the value 0. -/
theorem goParseFloat_zero_lit : goParseFloat "0" = some 0 := by
  with_unfolding_all rfl

/-- C7, amended: a total that does not parse (hence is not `"0"`) and is
at least 3 bytes long does not make scoring fail; its numeric value is
taken as 0, and rule 3, whose divisibility test holds at 0, contributes
25 points rather than 0. -/
theorem c7_unparsable_total (r : Receipt) (hparse : goParseFloat r.Total = none)
    (hlen : 3 ≤ goByteLen r.Total) :
    stringToFloat64 r.Total = 0 ∧ rule3Points r.Total = 25 ∧ (calculatePoints r).isSome = true := by
  have h0 : r.Total ≠ "0" := by
    intro h
    rw [h, goParseFloat_zero_lit] at hparse
    cases hparse
  have hf : stringToFloat64 r.Total = 0 := by
    rw [stringToFloat64, hparse]
    rfl
  refine ⟨hf, ?_, ?_⟩
  · have hmod : goMathMod 0 (1 / 4) = 0 := by with_unfolding_all rfl
    unfold rule3Points rule3Test
    rw [hf, hmod]
    simp
  · have hr2 : rule2Check r.Total = some (rule2Suffix r.Total) := by
      rw [rule2Check, if_neg h0, if_neg (by omega)]
    unfold calculatePoints
    rw [hr2]
    rfl

/-- C7, witness: the amended theorem applied to the concrete unparsable
total `"abc"`. -/
theorem c7_unparsable_total_witness :
    goParseFloat "abc" = none ∧ 3 ≤ goByteLen "abc" ∧
      (stringToFloat64 "abc" = 0 ∧ rule3Points "abc" = 25 ∧
        (calculatePoints ⟨"A", "2024-01-02", "13:00", [], "abc"⟩).isSome = true) :=
  ⟨by decide, by decide,
    c7_unparsable_total ⟨"A", "2024-01-02", "13:00", [], "abc"⟩ (by decide) (by decide)⟩

/-- A string with no characters is the empty string. -/
theorem string_of_toList_nil (s : String) (h : s.toList = []) : s = "" := by
  cases s with
  | mk data =>
    have hd : data = [] := h
    subst hd
    rfl

/-- C8: a retailer name containing `@` is rejected with reason
invalid-retailer-name whatever the rest of the receipt holds; the
retailer check passes exactly the non-empty strings all of whose code
points are ASCII letters, ASCII digits, or `\s` whitespace; and the
receipt with retailer `"M&M Corner Market"` is rejected with that
reason. -/
theorem c8_retailer_check :
    (∀ r : Receipt, '@' ∈ r.Retailer.toList → validate r = some Reason.invalidRetailerName) ∧
      (∀ s : String, retailerValid s = true ↔
        (s ≠ "" ∧ ∀ c ∈ s.toList,
          ((65 ≤ c.toNat ∧ c.toNat ≤ 90) ∨ (97 ≤ c.toNat ∧ c.toNat ≤ 122) ∨
            (48 ≤ c.toNat ∧ c.toNat ≤ 57) ∨ goRegexSpace c = true))) ∧
      validate ⟨"M&M Corner Market", "2022-01-01", "13:01", [], "9.00"⟩ =
        some Reason.invalidRetailerName := by
  refine ⟨?_, ?_, by decide⟩
  · intro r hmem
    have hrv : retailerValid r.Retailer = false := by
      cases hb : retailerValid r.Retailer with
      | false => rfl
      | true =>
        exfalso
        rw [retailerValid, Bool.and_eq_true] at hb
        have hat := List.all_eq_true.mp hb.2 '@' hmem
        exact absurd hat (by decide)
    unfold validate
    rw [hrv]
    rfl
  · intro s
    constructor
    · intro h
      rw [retailerValid, Bool.and_eq_true] at h
      obtain ⟨h1, h2⟩ := h
      refine ⟨?_, ?_⟩
      · intro hs
        subst hs
        revert h1
        decide
      · intro c hc
        have hrc := List.all_eq_true.mp h2 c hc
        revert hrc
        simp only [isRetailerChar, Bool.or_eq_true, decide_eq_true_eq]
        tauto
    · rintro ⟨hne, hall⟩
      unfold retailerValid
      rw [Bool.and_eq_true]
      refine ⟨?_, ?_⟩
      · cases hl : s.toList with
        | nil => exact absurd (string_of_toList_nil s hl) hne
        | cons a l => rfl
      · refine List.all_eq_true.mpr ?_
        intro c hc
        simp only [isRetailerChar, Bool.or_eq_true, decide_eq_true_eq]
        rcases hall c hc with h | h | h | h <;> tauto

/-- C8, witness: the universal parts of the theorem applied to concrete
inputs. -/
theorem c8_retailer_check_witness :
    ('@' ∈ ("E@G" : String).toList) ∧
      validate ⟨"E@G", "2022-01-01", "13:01", [], "9.00"⟩ = some Reason.invalidRetailerName ∧
      retailerValid "Target 99" = true :=
  ⟨by decide, c8_retailer_check.1 ⟨"E@G", "2022-01-01", "13:01", [], "9.00"⟩ (by decide),
    (c8_retailer_check.2.1 "Target 99").mpr ⟨by decide, by decide⟩⟩

/-- C9: a rejected submission (bind failure or any validation failure)
leaves the receipts store exactly as it was: nothing is added, removed,
or modified. -/
theorem c9_rejection_preserves_store (store : Store) (payload : Option Receipt)
    (freshId : String)
    (h : (processReceipts store payload freshId).2 = ProcessResult.bindError ∨
      ∃ reason, (processReceipts store payload freshId).2 = ProcessResult.validationError reason) :
    (processReceipts store payload freshId).1 = store := by
  cases payload with
  | none => rfl
  | some r =>
    cases hv : validate r with
    | some reason => simp [processReceipts, hv]
    | none =>
      exfalso
      rcases h with h | ⟨reason, h⟩ <;> simp [processReceipts, hv] at h

/-- C9, witness: a concrete rejected submission against a non-empty
store. -/
theorem c9_rejection_preserves_store_witness :
    ((processReceipts [("k0", ⟨"B", "2024-01-15", "13:00", [], "2.00"⟩)]
        (some ⟨"", "x", "x", [], "x"⟩) "k9").2 = ProcessResult.bindError ∨
      ∃ reason, (processReceipts [("k0", ⟨"B", "2024-01-15", "13:00", [], "2.00"⟩)]
        (some ⟨"", "x", "x", [], "x"⟩) "k9").2 = ProcessResult.validationError reason) ∧
      (processReceipts [("k0", ⟨"B", "2024-01-15", "13:00", [], "2.00"⟩)]
        (some ⟨"", "x", "x", [], "x"⟩) "k9").1 =
        [("k0", ⟨"B", "2024-01-15", "13:00", [], "2.00"⟩)] :=
  ⟨Or.inr ⟨Reason.invalidRetailerName, by decide⟩,
    c9_rejection_preserves_store [("k0", ⟨"B", "2024-01-15", "13:00", [], "2.00"⟩)]
      (some ⟨"", "x", "x", [], "x"⟩) "k9" (Or.inr ⟨Reason.invalidRetailerName, by decide⟩)⟩

/-- C10: a successful submission stores exactly one new entry under the
fresh id (the freshness hypothesis reflects the assumed uniqueness of
`generateID`), leaves every other key's lookup unchanged, and an
immediately following `getPoints` on that id retrieves the stored
receipt and scores it. -/
theorem c10_acceptance_adds_entry (store : Store) (r : Receipt) (freshId : String)
    (hval : validate r = none) (_hfresh : List.lookup freshId store = none) :
    (processReceipts store (some r) freshId).2 = ProcessResult.ok freshId ∧
      List.lookup freshId (processReceipts store (some r) freshId).1 = some r ∧
      (∀ k, k ≠ freshId →
        List.lookup k (processReceipts store (some r) freshId).1 = List.lookup k store) ∧
      (processReceipts store (some r) freshId).1.length = store.length + 1 ∧
      getPoints (processReceipts store (some r) freshId).1 freshId = some (calculatePoints r) := by
  have hst : (processReceipts store (some r) freshId).1 = (freshId, r) :: store := by
    simp [processReceipts, hval]
  have hres : (processReceipts store (some r) freshId).2 = ProcessResult.ok freshId := by
    simp [processReceipts, hval]
  refine ⟨hres, ?_, ?_, ?_, ?_⟩
  · rw [hst]
    simp [List.lookup]
  · intro k hk
    rw [hst, List.lookup]
    rw [beq_eq_false_iff_ne.mpr hk]
  · rw [hst]
    rfl
  · rw [hst]
    simp [getPoints, List.lookup]

/-- C10, witness: the theorem applied to a concrete accepted receipt over
a non-empty store. -/
theorem c10_acceptance_adds_entry_witness :
    validate ⟨"B", "2024-01-15", "13:00", [], "2.00"⟩ = none ∧
      List.lookup "k1" [("k0", (⟨"C", "2024-01-16", "10:00", [], "3.00"⟩ : Receipt))] = none ∧
      List.lookup "k1" (processReceipts [("k0", ⟨"C", "2024-01-16", "10:00", [], "3.00"⟩)]
          (some ⟨"B", "2024-01-15", "13:00", [], "2.00"⟩) "k1").1 =
        some ⟨"B", "2024-01-15", "13:00", [], "2.00"⟩ ∧
      (processReceipts [("k0", ⟨"C", "2024-01-16", "10:00", [], "3.00"⟩)]
          (some ⟨"B", "2024-01-15", "13:00", [], "2.00"⟩) "k1").1.length = 1 + 1 :=
  ⟨by decide, by decide,
    (c10_acceptance_adds_entry [("k0", ⟨"C", "2024-01-16", "10:00", [], "3.00"⟩)]
      ⟨"B", "2024-01-15", "13:00", [], "2.00"⟩ "k1" (by decide) (by decide)).2.1,
    (c10_acceptance_adds_entry [("k0", ⟨"C", "2024-01-16", "10:00", [], "3.00"⟩)]
      ⟨"B", "2024-01-15", "13:00", [], "2.00"⟩ "k1" (by decide) (by decide)).2.2.2.1⟩

end ReceiptProcessor
